import Mathlib

/-!
Shallow embedding of the MP3 frame-counting core (src/src/mp3Parser.ts).

A Node `Buffer` is a sequence of octets; we model it as `List Nat`, and every
read goes through `byteAt`, which reduces the stored value modulo 256 exactly
as a `Buffer` stores octets.  JavaScript arithmetic on these small values
(shifts, masks, bitwise or, `Math.floor` of an exact integer quotient of the
table values) coincides with the corresponding `Nat` operations: all
intermediate values stay far below 2^31, and for the 42 bitrate/sample-rate
combinations the floating-point quotient is never within 2^-15 of a wrong
integer, so `Math.floor` of the double division equals `Nat` floor division.

Exceptions (`throw new Error('Buffer overflow')` in `readByte`, caught by the
`try/catch` inside the scan loop of `countMp3Frames`) are modelled with
`Except Unit`: `readByte` and `parseFrameHeader` return `Except`, and the
scanner branches that correspond to the `catch` block advance the cursor by
one byte, exactly as the source does.
-/

namespace Mp3

/-- The decoded frame header, mirroring the `FrameHeader` interface of the
source (`version`, `layer`, `bitrateIndex`, `sampleRateIndex`, `padding`,
`frameSize`). -/
structure FrameHeader where
  version : Nat
  layer : Nat
  bitrateIndex : Nat
  sampleRateIndex : Nat
  padding : Bool
  frameSize : Nat
deriving DecidableEq

/-- Octet stored at index `i` of the buffer (a Node `Buffer` holds values
0..255, hence the reduction modulo 256; out-of-range indices are only ever
used behind explicit bounds checks, the default 0 is never observable). -/
def byteAt (buffer : List Nat) (i : Nat) : Nat :=
  buffer.getD i 0 % 256

/-- `readByte` of the source: bounds-checked read that throws (here:
`Except.error ()`) when `position >= buffer.length`. -/
def readByte (buffer : List Nat) (position : Nat) : Except Unit Nat :=
  if position ≥ buffer.length then Except.error ()
  else Except.ok (byteAt buffer position)

/-- `BITRATE_TABLE` of the source: MPEG Version 1 Layer III bitrates in kbps,
keys 1..14; any other key is absent (JavaScript `undefined`). -/
def BITRATE_TABLE (index : Nat) : Option Nat :=
  match index with
  | 1 => some 32
  | 2 => some 40
  | 3 => some 48
  | 4 => some 56
  | 5 => some 64
  | 6 => some 80
  | 7 => some 96
  | 8 => some 112
  | 9 => some 128
  | 10 => some 160
  | 11 => some 192
  | 12 => some 224
  | 13 => some 256
  | 14 => some 320
  | _ => none

/-- `SAMPLE_RATE_TABLE` of the source: MPEG Version 1 sample rates in Hz,
keys 0..2. -/
def SAMPLE_RATE_TABLE (index : Nat) : Option Nat :=
  match index with
  | 0 => some 44100
  | 1 => some 48000
  | 2 => some 32000
  | _ => none

/-- `parseFrameHeader` of the source, with the `readByte` calls already
resolved: inside the function every read is guarded by the initial
`position + 4 > buffer.length` check, so `readByte` never throws there and
the function is a pure `Option`-valued parser.  (`parseFrameHeader` below
threads the `Except` layer literally and is proved equal to `Except.ok` of
this function.) -/
def parseFrameHeaderPure (buffer : List Nat) (position : Nat) : Option FrameHeader :=
  if position + 4 > buffer.length then none
  else
    let byte1 := byteAt buffer position
    let byte2 := byteAt buffer (position + 1)
    if byte1 ≠ 0xff ∨ (byte2 &&& 0xe0) ≠ 0xe0 then none
    else
      let version := (byte2 >>> 3) &&& 0x03
      if version ≠ 3 then none
      else
        let layer := (byte2 >>> 1) &&& 0x03
        if layer ≠ 1 then none
        else
          let byte3 := byteAt buffer (position + 2)
          let bitrateIndex := (byte3 >>> 4) &&& 0x0f
          if bitrateIndex = 0 ∨ bitrateIndex = 15 then none
          else
            let sampleRateIndex := (byte3 >>> 2) &&& 0x03
            if sampleRateIndex = 3 then none
            else
              let padding := ((byte3 >>> 1) &&& 0x01) == 1
              match BITRATE_TABLE bitrateIndex, SAMPLE_RATE_TABLE sampleRateIndex with
              | some bitrate, some sampleRate =>
                some { version := version, layer := layer,
                       bitrateIndex := bitrateIndex,
                       sampleRateIndex := sampleRateIndex,
                       padding := padding,
                       frameSize := 144 * bitrate * 1000 / sampleRate
                                    + (if padding then 1 else 0) }
              | _, _ => none

/-- `parseFrameHeader` of the source with the exception layer kept explicit:
each `readByte` may fail, and a failure propagates to the caller (where the
try/catch of the scanner handles it). -/
def parseFrameHeader (buffer : List Nat) (position : Nat) :
    Except Unit (Option FrameHeader) :=
  if position + 4 > buffer.length then Except.ok none
  else
    match readByte buffer position with
    | Except.error e => Except.error e
    | Except.ok byte1 =>
      match readByte buffer (position + 1) with
      | Except.error e => Except.error e
      | Except.ok byte2 =>
        if byte1 ≠ 0xff ∨ (byte2 &&& 0xe0) ≠ 0xe0 then Except.ok none
        else
          let version := (byte2 >>> 3) &&& 0x03
          if version ≠ 3 then Except.ok none
          else
            let layer := (byte2 >>> 1) &&& 0x03
            if layer ≠ 1 then Except.ok none
            else
              match readByte buffer (position + 2) with
              | Except.error e => Except.error e
              | Except.ok byte3 =>
                let bitrateIndex := (byte3 >>> 4) &&& 0x0f
                if bitrateIndex = 0 ∨ bitrateIndex = 15 then Except.ok none
                else
                  let sampleRateIndex := (byte3 >>> 2) &&& 0x03
                  if sampleRateIndex = 3 then Except.ok none
                  else
                    let padding := ((byte3 >>> 1) &&& 0x01) == 1
                    match BITRATE_TABLE bitrateIndex, SAMPLE_RATE_TABLE sampleRateIndex with
                    | some bitrate, some sampleRate =>
                      Except.ok (some
                        { version := version, layer := layer,
                          bitrateIndex := bitrateIndex,
                          sampleRateIndex := sampleRateIndex,
                          padding := padding,
                          frameSize := 144 * bitrate * 1000 / sampleRate
                                       + (if padding then 1 else 0) })
                    | _, _ => Except.ok none

/-- The ID3v2 tag skip at the top of `countMp3Frames`, total version: when the
buffer has at least 10 bytes and starts with the ASCII characters I, D, 3
(Node decodes with the `ascii` encoding, which strips the high bit of each
byte), the starting offset is 10 plus the synchsafe size
`(b6 << 21) | (b7 << 14) | (b8 << 7) | b9`; otherwise the scan starts at 0. -/
def initialPosition (buffer : List Nat) : Nat :=
  if 10 ≤ buffer.length then
    if byteAt buffer 0 &&& 0x7f = 73 ∧ byteAt buffer 1 &&& 0x7f = 68 ∧
        byteAt buffer 2 &&& 0x7f = 51 then
      10 + ((byteAt buffer 6 <<< 21) ||| (byteAt buffer 7 <<< 14) |||
            (byteAt buffer 8 <<< 7) ||| byteAt buffer 9)
    else 0
  else 0

/-- The ID3v2 tag skip with the exception layer kept explicit: the four
`readByte` calls for the size bytes are not inside any try/catch in the
source, so a failure there would propagate out of `countMp3Frames`. -/
def initialPositionE (buffer : List Nat) : Except Unit Nat :=
  if 10 ≤ buffer.length then
    if byteAt buffer 0 &&& 0x7f = 73 ∧ byteAt buffer 1 &&& 0x7f = 68 ∧
        byteAt buffer 2 &&& 0x7f = 51 then
      match readByte buffer 6 with
      | Except.error e => Except.error e
      | Except.ok b6 =>
        match readByte buffer 7 with
        | Except.error e => Except.error e
        | Except.ok b7 =>
          match readByte buffer 8 with
          | Except.error e => Except.error e
          | Except.ok b8 =>
            match readByte buffer 9 with
            | Except.error e => Except.error e
            | Except.ok b9 => Except.ok (10 + ((b6 <<< 21) ||| (b7 <<< 14) ||| (b8 <<< 7) ||| b9))
    else Except.ok 0
  else Except.ok 0

/-- Outcome of one iteration of the scan loop: either continue at a new
cursor with a new count, or leave the loop (`break`) with a final count. -/
inductive StepResult where
  | next (position frameCount : Nat)
  | stop (frameCount : Nat)
deriving DecidableEq

/-- One iteration of the `while` body of `countMp3Frames` (the loop guard is
checked by `scanLoop`).  The `Except.error` branches are the `catch` block of
the source: the cursor advances by one byte from the position at the top of
the iteration.  Note that in the lookahead part both the verified branch and
the fallthrough set the cursor to `position + header.frameSize`, exactly as
the source does. -/
def scanStep (buffer : List Nat) (position frameCount : Nat) : StepResult :=
  match parseFrameHeader buffer position with
  | Except.error _ => StepResult.next (position + 1) frameCount
  | Except.ok none => StepResult.next (position + 1) frameCount
  | Except.ok (some header) =>
    if header.frameSize < 4 ∨ header.frameSize > 1440 then
      StepResult.next (position + 1) frameCount
    else if position + header.frameSize > buffer.length then
      StepResult.stop (if position + 4 ≤ buffer.length then frameCount + 1 else frameCount)
    else if position + header.frameSize ≥ buffer.length - 4 then
      StepResult.stop (frameCount + 1)
    else
      match parseFrameHeader buffer (position + header.frameSize) with
      | Except.error _ => StepResult.next (position + 1) (frameCount + 1)
      | Except.ok (some nextHeader) =>
        if nextHeader.frameSize ≥ 4 ∧ nextHeader.frameSize ≤ 1440 then
          StepResult.next (position + header.frameSize) (frameCount + 1)
        else
          StepResult.next (position + header.frameSize) (frameCount + 1)
      | Except.ok none => StepResult.next (position + header.frameSize) (frameCount + 1)

/-- The `while (position < buffer.length - 4)` loop of `countMp3Frames`,
driven by fuel.  The cursor strictly increases at every continuing step, so
`buffer.length` fuel is always enough (see `countMp3Frames`). -/
def scanLoop (buffer : List Nat) : Nat → Nat → Nat → Nat
  | 0, _, frameCount => frameCount
  | fuel + 1, position, frameCount =>
    if position + 4 < buffer.length then
      match scanStep buffer position frameCount with
      | StepResult.next p c => scanLoop buffer fuel p c
      | StepResult.stop c => c
    else frameCount

/-- `countMp3Frames` of the source: skip a leading ID3v2 tag, then scan. -/
def countMp3Frames (buffer : List Nat) : Nat :=
  scanLoop buffer buffer.length (initialPosition buffer) 0

/-- `countMp3Frames` with the exception layer of the unguarded ID3v2 size
reads kept explicit (the loop itself recovers every internal failure, which
`scanStep` models in its `catch` branches). -/
def countMp3FramesE (buffer : List Nat) : Except Unit Nat :=
  match initialPositionE buffer with
  | Except.error e => Except.error e
  | Except.ok p => Except.ok (scanLoop buffer buffer.length p 0)

/-- One iteration of the scan loop with the lookahead verification removed:
after counting an in-bounds frame the cursor is set to
`position + header.frameSize` unconditionally, without consulting
`parseFrameHeader` at the expected next position.  Every other branch is
exactly as in `scanStep`. -/
def scanStepSimple (buffer : List Nat) (position frameCount : Nat) : StepResult :=
  match parseFrameHeader buffer position with
  | Except.error _ => StepResult.next (position + 1) frameCount
  | Except.ok none => StepResult.next (position + 1) frameCount
  | Except.ok (some header) =>
    if header.frameSize < 4 ∨ header.frameSize > 1440 then
      StepResult.next (position + 1) frameCount
    else if position + header.frameSize > buffer.length then
      StepResult.stop (if position + 4 ≤ buffer.length then frameCount + 1 else frameCount)
    else if position + header.frameSize ≥ buffer.length - 4 then
      StepResult.stop (frameCount + 1)
    else
      StepResult.next (position + header.frameSize) (frameCount + 1)

/-- The scan loop built on `scanStepSimple` instead of `scanStep`. -/
def scanLoopSimple (buffer : List Nat) : Nat → Nat → Nat → Nat
  | 0, _, frameCount => frameCount
  | fuel + 1, position, frameCount =>
    if position + 4 < buffer.length then
      match scanStepSimple buffer position frameCount with
      | StepResult.next p c => scanLoopSimple buffer fuel p c
      | StepResult.stop c => c
    else frameCount

/-- The frame counter with the lookahead verification removed. -/
def countMp3FramesSimple (buffer : List Nat) : Nat :=
  scanLoopSimple buffer buffer.length (initialPosition buffer) 0

/-- Instrumentation: the sequence of cursor values at which the scan loop
guard is evaluated, starting from the given cursor (the frame count does not
influence the cursor, so it is not threaded). -/
def scanTrace (buffer : List Nat) : Nat → Nat → List Nat
  | 0, position => [position]
  | fuel + 1, position =>
    position ::
      (if position + 4 < buffer.length then
        match scanStep buffer position 0 with
        | StepResult.next p _ => scanTrace buffer fuel p
        | StepResult.stop _ => []
      else [])

/-- Instrumentation: the position of the lookahead `parseFrameHeader` call
performed by one loop iteration at `position`, if that call happens. -/
def lookaheadCalls (buffer : List Nat) (position : Nat) : List Nat :=
  match parseFrameHeader buffer position with
  | Except.ok (some header) =>
    if header.frameSize < 4 ∨ header.frameSize > 1440 then []
    else if position + header.frameSize > buffer.length then []
    else if position + header.frameSize ≥ buffer.length - 4 then []
    else [position + header.frameSize]
  | _ => []

/-- Instrumentation: every position at which the scan loop invokes
`parseFrameHeader` (main attempts and lookahead verifications), starting
from the given cursor. -/
def parseCalls (buffer : List Nat) : Nat → Nat → List Nat
  | 0, _ => []
  | fuel + 1, position =>
    if position + 4 < buffer.length then
      (position :: lookaheadCalls buffer position) ++
        (match scanStep buffer position 0 with
         | StepResult.next p _ => parseCalls buffer fuel p
         | StepResult.stop _ => [])
    else []

/-- Test fixture: one 417-byte constant-bitrate frame, the header
`0xFF 0xFB 0x90 0x00` (sync, Version 1, Layer III, bitrate index 9 =
128 kbps, sample rate index 0 = 44100 Hz, no padding) followed by 413 zero
filler bytes. -/
def frame417 : List Nat := [0xff, 0xfb, 0x90, 0x00] ++ List.replicate 413 0

/-- The header decoded from `frame417` at offset 0. -/
def header417 : FrameHeader :=
  { version := 3, layer := 1, bitrateIndex := 9, sampleRateIndex := 0,
    padding := false, frameSize := 417 }

/-- Test fixture: `n` back-to-back copies of `frame417`. -/
def repeatFrames : Nat → List Nat
  | 0 => []
  | n + 1 => frame417 ++ repeatFrames n

/-- Test fixture: a 10-byte ID3v2 tag header (`I`, `D`, `3`, version bytes,
flags, synchsafe size bytes all zero) followed by one `frame417`. -/
def id3Frame417 : List Nat := [73, 68, 51, 3, 0, 0, 0, 0, 0, 0] ++ frame417

/-- Test fixture: a 10-byte buffer that is only an ID3v2 tag header whose
synchsafe size bytes declare a 2 MiB tag body. -/
def id3Huge : List Nat := [73, 68, 51, 0, 0, 0, 1, 0, 0, 0]

/-! ## Theorems -/

/-- The guarded reads inside `parseFrameHeader` never fail: the parser is
`Except.ok` of its pure version.  This is the header-parser half of the
failure-recovery story: no `readByte` overflow escapes `parseFrameHeader`. -/
theorem parseFrameHeader_eq (buffer : List Nat) (position : Nat) :
    parseFrameHeader buffer position = Except.ok (parseFrameHeaderPure buffer position) := by
  by_cases hb : position + 4 > buffer.length
  · simp [parseFrameHeader, parseFrameHeaderPure, hb]
  · have h0 : readByte buffer position = Except.ok (byteAt buffer position) := by
      rw [readByte, if_neg]; omega
    have h1 : readByte buffer (position + 1) = Except.ok (byteAt buffer (position + 1)) := by
      rw [readByte, if_neg]; omega
    have h2 : readByte buffer (position + 2) = Except.ok (byteAt buffer (position + 2)) := by
      rw [readByte, if_neg]; omega
    simp only [parseFrameHeader, parseFrameHeaderPure, hb, if_false, h0, h1, h2]
    split_ifs <;> try rfl
    all_goals
      cases BITRATE_TABLE (byteAt buffer (position + 2) >>> 4 &&& 15) <;>
        cases SAMPLE_RATE_TABLE (byteAt buffer (position + 2) >>> 2 &&& 3) <;> rfl

/-- A position with fewer than 4 readable bytes never parses as a header. -/
theorem parse_oob (buffer : List Nat) (position : Nat)
    (h : buffer.length < position + 4) : parseFrameHeaderPure buffer position = none := by
  rw [parseFrameHeaderPure, if_pos]; omega

/-- Reading inside the left part of an appended buffer. -/
theorem byteAt_append_left (xs ys : List Nat) (i : Nat) (h : i < xs.length) :
    byteAt (xs ++ ys) i = byteAt xs i := by
  unfold byteAt
  rw [List.getD_append xs ys 0 i h]

/-- Reading past the left part of an appended buffer. -/
theorem byteAt_append_right (xs ys : List Nat) (i : Nat) :
    byteAt (xs ++ ys) (xs.length + i) = byteAt ys i := by
  unfold byteAt
  rw [List.getD_append_right xs ys 0 (xs.length + i) (by omega)]
  have h : xs.length + i - xs.length = i := by omega
  rw [h]

/-- Parsing entirely inside the left part of an appended buffer. -/
theorem parse_append_left (xs ys : List Nat) (position : Nat)
    (h : position + 4 ≤ xs.length) :
    parseFrameHeaderPure (xs ++ ys) position = parseFrameHeaderPure xs position := by
  have e0 : byteAt (xs ++ ys) position = byteAt xs position :=
    byteAt_append_left xs ys position (by omega)
  have e1 : byteAt (xs ++ ys) (position + 1) = byteAt xs (position + 1) :=
    byteAt_append_left xs ys (position + 1) (by omega)
  have e2 : byteAt (xs ++ ys) (position + 2) = byteAt xs (position + 2) :=
    byteAt_append_left xs ys (position + 2) (by omega)
  unfold parseFrameHeaderPure
  rw [if_neg (show ¬ position + 4 > (xs ++ ys).length from by
        rw [List.length_append]; omega),
      if_neg (show ¬ position + 4 > xs.length from by omega), e0, e1, e2]

/-- Parsing at an offset past the left part of an appended buffer. -/
theorem parse_append_right (xs ys : List Nat) (p : Nat) :
    parseFrameHeaderPure (xs ++ ys) (xs.length + p) = parseFrameHeaderPure ys p := by
  by_cases hb : ys.length < p + 4
  · rw [parse_oob _ _ (by simp [List.length_append]; omega), parse_oob _ _ hb]
  · have e0 : byteAt (xs ++ ys) (xs.length + p) = byteAt ys p := byteAt_append_right xs ys p
    have e1 : byteAt (xs ++ ys) (xs.length + p + 1) = byteAt ys (p + 1) := by
      have h : xs.length + p + 1 = xs.length + (p + 1) := by omega
      rw [h, byteAt_append_right xs ys (p + 1)]
    have e2 : byteAt (xs ++ ys) (xs.length + p + 2) = byteAt ys (p + 2) := by
      have h : xs.length + p + 2 = xs.length + (p + 2) := by omega
      rw [h, byteAt_append_right xs ys (p + 2)]
    unfold parseFrameHeaderPure
    rw [if_neg (show ¬ xs.length + p + 4 > (xs ++ ys).length from by
          rw [List.length_append]; omega),
        if_neg (show ¬ p + 4 > ys.length from by omega), e0, e1, e2]

/-- Length of the single-frame fixture. -/
theorem frame417_length : frame417.length = 417 := by
  rw [frame417, List.length_append, List.length_replicate]
  rfl


/-- Length of `n` back-to-back frames. -/
theorem repeatFrames_length (n : Nat) : (repeatFrames n).length = 417 * n := by
  induction n with
  | zero => rfl
  | succ m ih => simp [repeatFrames, frame417_length, ih]; ring

set_option maxRecDepth 8000 in
/-- Decoding the fixture header. -/
theorem parse_frame417 : parseFrameHeaderPure frame417 0 = some header417 := by
  decide

/-- The fixture header decodes at the head of any extension of `frame417`. -/
theorem parse_frame417_append (ys : List Nat) :
    parseFrameHeaderPure (frame417 ++ ys) 0 = some header417 := by
  rw [parse_append_left frame417 ys 0 (by rw [frame417_length]; omega)]
  exact parse_frame417

/-- When the loop guard fails the scan loop leaves the count unchanged. -/
theorem scanLoop_stop (buffer : List Nat) (fuel position count : Nat)
    (h : buffer.length ≤ position + 4) : scanLoop buffer fuel position count = count := by
  cases fuel with
  | zero => rfl
  | succ f =>
    rw [scanLoop, if_neg]
    omega

/-- A failed header attempt makes the loop advance one byte. -/
theorem scanStep_none (buffer : List Nat) (position count : Nat)
    (hp : parseFrameHeaderPure buffer position = none) :
    scanStep buffer position count = StepResult.next (position + 1) count := by
  simp only [scanStep, parseFrameHeader_eq, hp]

/-- An accepted frame that fits with at least 5 bytes after it: the frame is
counted and the cursor jumps to the end of the frame (with or without a
successful lookahead). -/
theorem scanStep_count (buffer : List Nat) (position count : Nat) (h : FrameHeader)
    (hp : parseFrameHeaderPure buffer position = some h)
    (hlo : 4 ≤ h.frameSize) (hhi : h.frameSize ≤ 1440)
    (hfit : position + h.frameSize ≤ buffer.length)
    (hmore : position + h.frameSize + 4 < buffer.length) :
    scanStep buffer position count = StepResult.next (position + h.frameSize) (count + 1) := by
  simp only [scanStep, parseFrameHeader_eq, hp]
  rw [if_neg (by omega), if_neg (by omega), if_neg (by omega)]
  rcases hq : parseFrameHeaderPure buffer (position + h.frameSize) with _ | nh <;>
    simp [hq, ite_self]

/-- An accepted frame that fits but whose end is within 4 bytes of the end of
the buffer: the frame is counted and the scan stops. -/
theorem scanStep_last (buffer : List Nat) (position count : Nat) (h : FrameHeader)
    (hp : parseFrameHeaderPure buffer position = some h)
    (hlo : 4 ≤ h.frameSize) (hhi : h.frameSize ≤ 1440)
    (hfit : position + h.frameSize ≤ buffer.length)
    (hend : buffer.length ≤ position + h.frameSize + 4) :
    scanStep buffer position count = StepResult.stop (count + 1) := by
  simp only [scanStep, parseFrameHeader_eq, hp]
  rw [if_neg (by omega), if_neg (by omega), if_pos (by omega)]

/-- An accepted frame that overruns the buffer: the scan stops, counting the
frame exactly when a header-sized remainder is present. -/
theorem scanStep_overrun (buffer : List Nat) (position count : Nat) (h : FrameHeader)
    (hp : parseFrameHeaderPure buffer position = some h)
    (hlo : 4 ≤ h.frameSize) (hhi : h.frameSize ≤ 1440)
    (hover : buffer.length < position + h.frameSize) :
    scanStep buffer position count =
      StepResult.stop (if position + 4 ≤ buffer.length then count + 1 else count) := by
  simp only [scanStep, parseFrameHeader_eq, hp]
  rw [if_neg (by omega), if_pos (by omega)]

/-- Every continuing step strictly advances the cursor and never decreases
the count. -/
theorem scanStep_next_le (buffer : List Nat) (position count p c : Nat)
    (hs : scanStep buffer position count = StepResult.next p c) :
    position < p ∧ count ≤ c := by
  unfold scanStep at hs
  repeat' split at hs
  all_goals first
    | (cases hs; exact ⟨by omega, by omega⟩)
    | (cases hs)

/-- A stopping step never decreases the count. -/
theorem scanStep_stop_le (buffer : List Nat) (position count c : Nat)
    (hs : scanStep buffer position count = StepResult.stop c) :
    count ≤ c := by
  unfold scanStep at hs
  repeat' split at hs
  all_goals first
    | (cases hs; omega)
    | (cases hs)

/-- A continuing step keeps the cursor within the buffer. -/
theorem scanStep_next_bound (buffer : List Nat) (position count p c : Nat)
    (hg : position + 4 < buffer.length)
    (hs : scanStep buffer position count = StepResult.next p c) :
    p ≤ buffer.length := by
  unfold scanStep at hs
  repeat' split at hs
  all_goals first
    | (cases hs; omega)
    | (cases hs)

/-- If no position of the buffer parses as a header, the scan loop only ever
advances byte by byte and the count never changes. -/
theorem scanLoop_none (buffer : List Nat)
    (hall : ∀ p, parseFrameHeaderPure buffer p = none) :
    ∀ fuel position count, scanLoop buffer fuel position count = count := by
  intro fuel
  induction fuel with
  | zero => intro position count; rfl
  | succ f ih =>
    intro position count
    by_cases hg : position + 4 < buffer.length
    · rw [scanLoop, if_pos hg, scanStep_none buffer position count (hall position)]
      exact ih (position + 1) count
    · rw [scanLoop, if_neg hg]

/-- The scan loop never decreases the frame count. -/
theorem scanLoop_le (buffer : List Nat) :
    ∀ fuel position count, count ≤ scanLoop buffer fuel position count := by
  intro fuel
  induction fuel with
  | zero => intro position count; exact Nat.le_refl count
  | succ f ih =>
    intro position count
    rw [scanLoop]
    by_cases hg : position + 4 < buffer.length
    · rw [if_pos hg]
      cases hs : scanStep buffer position count with
      | next p c => exact Nat.le_trans (scanStep_next_le buffer position count p c hs).2 (ih p c)
      | stop c => exact scanStep_stop_le buffer position count c hs
    · rw [if_neg hg]

/-- Every cursor value reached by the scan loop stays within the buffer,
provided the starting cursor does. -/
theorem scanTrace_bound (buffer : List Nat) :
    ∀ fuel position, position ≤ buffer.length →
      ∀ q ∈ scanTrace buffer fuel position, q ≤ buffer.length := by
  intro fuel
  induction fuel with
  | zero =>
    intro position hpos q hq
    rw [scanTrace] at hq
    simp only [List.mem_singleton] at hq
    omega
  | succ f ih =>
    intro position hpos q hq
    rw [scanTrace] at hq
    rcases List.mem_cons.mp hq with hq | hq
    · omega
    · by_cases hg : position + 4 < buffer.length
      · rw [if_pos hg] at hq
        rcases hs : scanStep buffer position 0 with ⟨p, c⟩ | c <;> rw [hs] at hq
        · exact ih p (scanStep_next_bound buffer position 0 p c hg hs) q hq
        · simp at hq
      · rw [if_neg hg] at hq
        simp at hq

/-- The lookahead call of one iteration happens strictly more than 4 bytes
before the end of the buffer. -/
theorem lookaheadCalls_mem (buffer : List Nat) (position q : Nat)
    (hq : q ∈ lookaheadCalls buffer position) : q + 4 < buffer.length := by
  unfold lookaheadCalls at hq
  repeat' split at hq
  all_goals simp_all

/-- Every position at which the scan loop attempts to parse a header lies
strictly more than 4 bytes before the end of the buffer: positions in the
last 4 bytes are never examined. -/
theorem parseCalls_bound (buffer : List Nat) :
    ∀ fuel start q, q ∈ parseCalls buffer fuel start → q + 4 < buffer.length := by
  intro fuel
  induction fuel with
  | zero => intro start q hq; simp [parseCalls] at hq
  | succ f ih =>
    intro start q hq
    rw [parseCalls] at hq
    by_cases hg : start + 4 < buffer.length
    · rw [if_pos hg] at hq
      rcases List.mem_append.mp hq with hq | hq
      · rcases List.mem_cons.mp hq with hq | hq
        · omega
        · exact lookaheadCalls_mem buffer start q hq
      · rcases hs : scanStep buffer start 0 with ⟨p, c⟩ | c <;> rw [hs] at hq
        · exact ih p q hq
        · simp at hq
    · rw [if_neg hg] at hq
      simp at hq

/-- Removing the lookahead verification does not change what one iteration
does: both variants move to the same cursor with the same count. -/
theorem scanStepSimple_eq (buffer : List Nat) (position count : Nat) :
    scanStepSimple buffer position count = scanStep buffer position count := by
  simp only [scanStepSimple, scanStep, parseFrameHeader_eq]
  rcases hpp : parseFrameHeaderPure buffer position with _ | h <;> simp only [hpp]
  split_ifs <;> try rfl
  rcases hq : parseFrameHeaderPure buffer (position + h.frameSize) with _ | nh <;>
    simp [hq, ite_self]

/-- Removing the lookahead verification does not change the scan loop. -/
theorem scanLoopSimple_eq (buffer : List Nat) :
    ∀ fuel position count,
      scanLoopSimple buffer fuel position count = scanLoop buffer fuel position count := by
  intro fuel
  induction fuel with
  | zero => intro position count; rfl
  | succ f ih =>
    intro position count
    rw [scanLoopSimple, scanLoop, scanStepSimple_eq]
    by_cases hg : position + 4 < buffer.length
    · rw [if_pos hg, if_pos hg]
      cases hs : scanStep buffer position count with
      | next p c => exact ih p c
      | stop c => rfl
    · rw [if_neg hg, if_neg hg]

/-- The ID3v2 size reads are guarded by the 10-byte length check and never
fail: the tag skip is `Except.ok` of its total version. -/
theorem initialPositionE_eq (buffer : List Nat) :
    initialPositionE buffer = Except.ok (initialPosition buffer) := by
  rw [initialPositionE, initialPosition]
  by_cases h10 : 10 ≤ buffer.length
  · rw [if_pos h10, if_pos h10]
    by_cases hid : byteAt buffer 0 &&& 0x7f = 73 ∧ byteAt buffer 1 &&& 0x7f = 68 ∧
        byteAt buffer 2 &&& 0x7f = 51
    · rw [if_pos hid, if_pos hid]
      have r6 : readByte buffer 6 = Except.ok (byteAt buffer 6) := by
        rw [readByte, if_neg]; omega
      have r7 : readByte buffer 7 = Except.ok (byteAt buffer 7) := by
        rw [readByte, if_neg]; omega
      have r8 : readByte buffer 8 = Except.ok (byteAt buffer 8) := by
        rw [readByte, if_neg]; omega
      have r9 : readByte buffer 9 = Except.ok (byteAt buffer 9) := by
        rw [readByte, if_neg]; omega
      simp only [r6, r7, r8, r9]
    · rw [if_neg hid, if_neg hid]
  · rw [if_neg h10, if_neg h10]

/-- Every frame boundary of the repeated fixture parses as the fixture
header. -/
theorem parse_repeat : ∀ k n, k < n →
    parseFrameHeaderPure (repeatFrames n) (417 * k) = some header417 := by
  intro k
  induction k with
  | zero =>
    intro n hn
    match n, hn with
    | n + 1, _ =>
      rw [Nat.mul_zero, repeatFrames]
      exact parse_frame417_append (repeatFrames n)
  | succ j ih =>
    intro n hn
    match n, hn with
    | n + 1, hn =>
      have h417 : 417 * (j + 1) = frame417.length + 417 * j := by
        rw [frame417_length]; ring
      rw [repeatFrames, h417, parse_append_right]
      exact ih n (by omega)

/-- Scanning the repeated fixture from the start of frame `k` counts exactly
the remaining `n - k` frames. -/
theorem scan_repeat (n : Nat) :
    ∀ fuel k count, k < n → n - k ≤ fuel →
      scanLoop (repeatFrames n) fuel (417 * k) count = count + (n - k) := by
  intro fuel
  induction fuel with
  | zero =>
    intro k count hk hf
    exact absurd hf (by omega)
  | succ f ih =>
    intro k count hk hf
    have hlen : (repeatFrames n).length = 417 * n := repeatFrames_length n
    have hfs : header417.frameSize = 417 := rfl
    have hg : 417 * k + 4 < (repeatFrames n).length := by rw [hlen]; omega
    have hp : parseFrameHeaderPure (repeatFrames n) (417 * k) = some header417 :=
      parse_repeat k n hk
    by_cases hend : k + 1 = n
    · have hs := scanStep_last (repeatFrames n) (417 * k) count header417 hp
        (by omega) (by omega) (by rw [hlen]; omega) (by rw [hlen]; omega)
      simp only [scanLoop, if_pos hg, hs]
      omega
    · have hs := scanStep_count (repeatFrames n) (417 * k) count header417 hp
        (by omega) (by omega) (by rw [hlen]; omega) (by rw [hlen]; omega)
      simp only [scanLoop, if_pos hg, hs]
      have hnext : 417 * k + header417.frameSize = 417 * (k + 1) := by
        rw [hfs]; ring
      rw [hnext, ih (k + 1) (count + 1) (by omega) (by omega)]
      omega

/-- The repeated fixture carries no ID3 tag: its first byte is the sync byte
255, whose 7-bit ASCII decoding is not the character I. -/
theorem initialPosition_repeat (n : Nat) (hn : 1 ≤ n) :
    initialPosition (repeatFrames n) = 0 := by
  match n, hn with
  | n + 1, _ =>
    have hb : byteAt (repeatFrames (n + 1)) 0 = 255 := by
      rw [repeatFrames, frame417]; rfl
    rw [initialPosition]
    by_cases h10 : 10 ≤ (repeatFrames (n + 1)).length
    · rw [if_pos h10, if_neg]
      intro hid
      rw [hb] at hid
      exact absurd hid.1 (by decide)
    · rw [if_neg h10]

/-! ## Claim theorems -/

/-- C1: For every N ≥ 1, a buffer that is exactly N back-to-back copies of
the 417-byte constant-bitrate frame (header `0xFF 0xFB 0x90 0x00` followed by
413 zero filler bytes) makes `countMp3Frames` return exactly N. -/
theorem claim_c1 (n : Nat) (hn : 1 ≤ n) : countMp3Frames (repeatFrames n) = n := by
  rw [countMp3Frames, initialPosition_repeat n hn]
  have h := scan_repeat n (repeatFrames n).length 0 0 (by omega)
    (by rw [repeatFrames_length]; omega)
  simpa using h

/-- C1 witness: the single-frame buffer (N = 1) yields exactly one frame. -/
theorem claim_c1_witness : 1 ≤ 1 ∧ countMp3Frames (repeatFrames 1) = 1 :=
  ⟨Nat.le_refl 1, claim_c1 1 (Nat.le_refl 1)⟩

set_option maxRecDepth 2000 in
/-- C2 counterexample: the claim says the cursor never exceeds the buffer
length, including immediately after the ID3 tag skip.  On the 10-byte buffer
`id3Huge` the skip sets the cursor (the starting position that
`countMp3Frames` hands to the scan loop) to 10 + 2^21 = 2097162, far beyond
the buffer length 10. -/
theorem claim_c2_counterexample : List.length id3Huge < initialPosition id3Huge := by
  decide

/-- C2 (amended): the frame count never decreases (hence stays ≥ 0), and
every cursor value reached during the scan loop stays within the buffer
length whenever the scan starts within the buffer; however, the ID3 tag skip
may set the starting cursor beyond the buffer length, in which case the loop
body never runs and the count is 0. -/
theorem claim_c2 :
    (∀ (buffer : List Nat) (fuel position count : Nat),
      count ≤ scanLoop buffer fuel position count) ∧
    (∀ (buffer : List Nat) (fuel position : Nat), position ≤ List.length buffer →
      ∀ q ∈ scanTrace buffer fuel position, q ≤ List.length buffer) ∧
    (∀ buffer : List Nat, List.length buffer < initialPosition buffer →
      countMp3Frames buffer = 0) := by
  refine ⟨fun buffer fuel position count => scanLoop_le buffer fuel position count,
          fun buffer fuel position h => scanTrace_bound buffer fuel position h,
          fun buffer h => ?_⟩
  rw [countMp3Frames]
  exact scanLoop_stop buffer _ _ 0 (by omega)

set_option maxRecDepth 2000 in
/-- C2 witness: on `id3Huge` the skip overshoots the buffer and the count is
0; on a plain buffer starting in bounds every traced cursor stays in
bounds. -/
theorem claim_c2_witness :
    countMp3Frames id3Huge = 0 ∧
      ∀ q ∈ scanTrace [0, 0, 0, 0, 0] 5 0, q ≤ List.length [0, 0, 0, 0, 0] :=
  ⟨claim_c2.2.2 id3Huge (by decide), claim_c2.2.1 [0, 0, 0, 0, 0] 5 0 (by decide)⟩

/-- C3: a buffer in which no position parses as a valid frame header (which
includes every buffer shorter than 4 bytes) yields a count of 0. -/
theorem claim_c3 (buffer : List Nat)
    (hall : ∀ p, parseFrameHeaderPure buffer p = none) :
    countMp3Frames buffer = 0 := by
  rw [countMp3Frames]
  exact scanLoop_none buffer hall buffer.length (initialPosition buffer) 0

/-- C3 witness: the empty buffer has no valid header position and counts 0. -/
theorem claim_c3_witness : countMp3Frames [] = 0 :=
  claim_c3 [] (fun p => parse_oob [] p (by simp))

/-- C4: `parseFrameHeader` rejects a position (and the scanner therefore
never counts a frame there) whenever the sync byte, sync bits, version code,
layer code, bitrate index or sample rate index is invalid, for every buffer
and every position. -/
theorem claim_c4 (buffer : List Nat) (position : Nat)
    (hbad : byteAt buffer position ≠ 0xff
      ∨ byteAt buffer (position + 1) &&& 0xe0 ≠ 0xe0
      ∨ (byteAt buffer (position + 1) >>> 3) &&& 0x03 ≠ 3
      ∨ (byteAt buffer (position + 1) >>> 1) &&& 0x03 ≠ 1
      ∨ (byteAt buffer (position + 2) >>> 4) &&& 0x0f = 0
      ∨ (byteAt buffer (position + 2) >>> 4) &&& 0x0f = 15
      ∨ (byteAt buffer (position + 2) >>> 2) &&& 0x03 = 3) :
    parseFrameHeaderPure buffer position = none := by
  simp only [parseFrameHeaderPure]
  split_ifs <;> try rfl
  all_goals
    exfalso
    rcases hbad with h | h | h | h | h | h | h <;> simp_all

/-- C4 witness: bitrate index 0 is rejected even under a valid sync word. -/
theorem claim_c4_witness : parseFrameHeaderPure [255, 251, 0, 0] 0 = none :=
  claim_c4 [255, 251, 0, 0] 0 (by decide)

set_option maxRecDepth 8000 in
/-- C5: a buffer of length ≥ 10 starting with the bytes I, D, 3 begins its
scan at offset 10 + the synchsafe size decoded from bytes 6..9; in
particular the tag-plus-frame fixture counts exactly 1 frame, the tag bytes
are never counted. -/
theorem claim_c5 :
    (∀ buffer : List Nat, 10 ≤ List.length buffer →
      byteAt buffer 0 = 73 → byteAt buffer 1 = 68 → byteAt buffer 2 = 51 →
      initialPosition buffer =
        10 + ((byteAt buffer 6 <<< 21) ||| (byteAt buffer 7 <<< 14) |||
              (byteAt buffer 8 <<< 7) ||| byteAt buffer 9)) ∧
    countMp3Frames id3Frame417 = 1 := by
  constructor
  · intro buffer h10 h0 h1 h2
    rw [initialPosition, if_pos h10, if_pos]
    refine ⟨?_, ?_, ?_⟩
    · rw [h0]; decide
    · rw [h1]; decide
    · rw [h2]; decide
  · decide

set_option maxRecDepth 8000 in
/-- C5 witness: on the concrete fixture the skip lands at offset 10 (size
bytes all zero) and the count is 1. -/
theorem claim_c5_witness :
    initialPosition id3Frame417 = 10 ∧ countMp3Frames id3Frame417 = 1 :=
  ⟨by rw [claim_c5.1 id3Frame417 (by decide) (by decide) (by decide) (by decide)]
      decide,
   claim_c5.2⟩

/-- C6: every successfully parsed header carries
`frameSize = floor(144 * bitrate_kbps * 1000 / sampleRate_Hz) + padding`,
with the bitrate and sample rate drawn from the fixed lookup tables. -/
theorem claim_c6 (buffer : List Nat) (position : Nat) (h : FrameHeader)
    (hp : parseFrameHeaderPure buffer position = some h) :
    ∃ bitrate sampleRate, BITRATE_TABLE h.bitrateIndex = some bitrate ∧
      SAMPLE_RATE_TABLE h.sampleRateIndex = some sampleRate ∧
      h.frameSize = 144 * bitrate * 1000 / sampleRate +
        (if h.padding then 1 else 0) := by
  simp only [parseFrameHeaderPure] at hp
  by_cases hb : position + 4 > buffer.length
  · rw [if_pos hb] at hp; cases hp
  · rw [if_neg hb] at hp
    by_cases h1 : byteAt buffer position ≠ 255 ∨
        byteAt buffer (position + 1) &&& 224 ≠ 224
    · rw [if_pos h1] at hp; cases hp
    · rw [if_neg h1] at hp
      by_cases h2 : byteAt buffer (position + 1) >>> 3 &&& 3 ≠ 3
      · rw [if_pos h2] at hp; cases hp
      · rw [if_neg h2] at hp
        by_cases h3 : byteAt buffer (position + 1) >>> 1 &&& 3 ≠ 1
        · rw [if_pos h3] at hp; cases hp
        · rw [if_neg h3] at hp
          by_cases h4 : byteAt buffer (position + 2) >>> 4 &&& 15 = 0 ∨
              byteAt buffer (position + 2) >>> 4 &&& 15 = 15
          · rw [if_pos h4] at hp; cases hp
          · rw [if_neg h4] at hp
            by_cases h5 : byteAt buffer (position + 2) >>> 2 &&& 3 = 3
            · rw [if_pos h5] at hp; cases hp
            · rw [if_neg h5] at hp
              rcases hbr : BITRATE_TABLE (byteAt buffer (position + 2) >>> 4 &&& 15)
                  with _ | bitrate <;>
                rcases hsr : SAMPLE_RATE_TABLE (byteAt buffer (position + 2) >>> 2 &&& 3)
                    with _ | sampleRate <;>
                simp only [hbr, hsr] at hp <;>
                try (exact Option.noConfusion hp)
              cases hp
              exact ⟨bitrate, sampleRate, hbr, hsr, rfl⟩

set_option maxRecDepth 8000 in
/-- C6 witness: the fixture header has bitrate index 9 (128 kbps) at
44100 Hz without padding, and floor(144 * 128000 / 44100) = 417. -/
theorem claim_c6_witness :
    parseFrameHeaderPure frame417 0 = some header417 ∧
    ∃ bitrate sampleRate, BITRATE_TABLE header417.bitrateIndex = some bitrate ∧
      SAMPLE_RATE_TABLE header417.sampleRateIndex = some sampleRate ∧
      header417.frameSize = 144 * bitrate * 1000 / sampleRate +
        (if header417.padding then 1 else 0) :=
  ⟨parse_frame417, claim_c6 frame417 0 header417 parse_frame417⟩

/-- C7: no internal failure ever reaches the caller: with the exception
layer kept explicit, `countMp3Frames` always returns `Except.ok` of the
total count (the `readByte` overflow and every header-validity failure are
recovered inside the scan, driving a one-byte cursor advance). -/
theorem claim_c7 (buffer : List Nat) :
    countMp3FramesE buffer = Except.ok (countMp3Frames buffer) := by
  simp only [countMp3FramesE, initialPositionE_eq, countMp3Frames]

/-- C8: when the scanner accepts a header whose frame size is in [4, 1440]
but the frame would overrun the buffer, it counts the trailing partial frame
exactly when at least 4 bytes remain from the cursor, and in either case the
scan stops immediately (the result no longer depends on the remaining
fuel). -/
theorem claim_c8 (buffer : List Nat) (fuel position count : Nat) (h : FrameHeader)
    (hg : position + 4 < List.length buffer)
    (hp : parseFrameHeaderPure buffer position = some h)
    (hlo : 4 ≤ h.frameSize) (hhi : h.frameSize ≤ 1440)
    (hover : List.length buffer < position + h.frameSize) :
    scanLoop buffer (fuel + 1) position count =
      if position + 4 ≤ List.length buffer then count + 1 else count := by
  simp only [scanLoop, if_pos hg,
    scanStep_overrun buffer position count h hp hlo hhi hover]

/-- C8 witness: a 9-byte buffer holding one valid header whose declared
417-byte frame overruns the buffer counts one trailing partial frame. -/
theorem claim_c8_witness :
    scanLoop [255, 251, 144, 0, 0, 0, 0, 0, 0] (8 + 1) 0 0 =
      if 0 + 4 ≤ List.length [255, 251, 144, 0, 0, 0, 0, 0, 0] then 0 + 1 else 0 :=
  claim_c8 [255, 251, 144, 0, 0, 0, 0, 0, 0] 8 0 0 header417
    (by decide) (by decide) (by decide) (by decide) (by decide)

/-- C9: `countMp3Frames` is extensionally equal to the variant with the
lookahead verification removed: both the verified-lookahead branch and the
fallthrough set the cursor to `position + frameSize`, so the lookahead never
changes the count. -/
theorem claim_c9 (buffer : List Nat) :
    countMp3FramesSimple buffer = countMp3Frames buffer := by
  rw [countMp3FramesSimple, countMp3Frames, scanLoopSimple_eq]

/-- C10: the scan loop runs only while the cursor is more than 4 bytes from
the end: with at most 4 bytes left it returns the count unchanged, every
position at which a header parse is ever attempted is more than 4 bytes
before the end, and the 4-byte buffer holding exactly one valid header
counts 0 frames. -/
theorem claim_c10 :
    (∀ (buffer : List Nat) (fuel position count : Nat),
      List.length buffer ≤ position + 4 → scanLoop buffer fuel position count = count) ∧
    (∀ (buffer : List Nat) (fuel start q : Nat),
      q ∈ parseCalls buffer fuel start → q + 4 < List.length buffer) ∧
    countMp3Frames [255, 251, 144, 0] = 0 :=
  ⟨fun buffer fuel position count h => scanLoop_stop buffer fuel position count h,
   fun buffer fuel start q h => parseCalls_bound buffer fuel start q h,
   by decide⟩

/-- C10 witness: a stopped loop keeps its count, and position 0 of a 6-byte
buffer is examined only because it is more than 4 bytes from the end. -/
theorem claim_c10_witness :
    scanLoop [255, 251, 144, 0] 4 0 5 = 5 ∧ 0 + 4 < List.length [255, 0, 0, 0, 0, 0] :=
  ⟨claim_c10.1 [255, 251, 144, 0] 4 0 5 (by decide),
   claim_c10.2.1 [255, 0, 0, 0, 0, 0] 6 0 0 (by decide)⟩

end Mp3
